import Mathlib

/-!
Shallow embedding of the snap-search backend (src/backend/server.js):
the image-to-searchable-text pipeline, its HTTP handlers, and the
Mongo-backed record store, together with proofs about the behaviour of
each handler.  External collaborators (sharp, tesseract, fs, MongoDB)
are modelled at their interface: per-file outcomes of preprocessing and
OCR are inputs to the pipeline functions, and the record store is a list
of records.
-/

deriving instance DecidableEq for Except

namespace SnapSearch

/-- The persistent entity stored by mongoose (src/unnamed/part_002):
`image` (filename), `text` (extracted text), plus the store-assigned
`_id` and the `createdAt` timestamp added by `timestamps: true`. -/
structure ImageRecord where
  id : Nat
  image : String
  text : String
  createdAt : Nat
deriving DecidableEq, Repr

/-- The database: the collection of image records, in insertion order. -/
abbrev Store := List ImageRecord

/-- JavaScript whitespace test for the characters relevant here,
modelling what `String.prototype.trim` removes (ASCII whitespace). -/
def isJsWhitespace (c : Char) : Bool :=
  c = ' ' || c = '\t' || c = '\n' || c = '\r'

/-- Model of JavaScript `String.prototype.trim`: drop whitespace from
both ends. -/
def jsTrim (s : String) : String :=
  String.mk (((s.toList.dropWhile isJsWhitespace).reverse.dropWhile isJsWhitespace).reverse)

/-- Outcome of the external collaborators for one file: whether
`sharp`-based preprocessing succeeds (`pre`), what `tesseract.recognize`
returns (`ocrRaw`: raw recognized text, or an engine error), and whether
the deferred `fs.unlink` of the temp artifact would fail
(`unlinkWouldFail`).  These are the inputs the pipeline reacts to. -/
structure FileEnv where
  pre : Except String Unit
  ocrRaw : Except String String
  unlinkWouldFail : Bool
deriving DecidableEq, Repr

/-- Model of `performOCR` (server.js:98-106): awaits the engine, trims the text;
on engine error re-throws with the message prefixed
`OCR processing failed: `. -/
def performOCR (ocrRaw : Except String String) : Except String String :=
  match ocrRaw with
  | Except.ok t => Except.ok (jsTrim t)
  | Except.error e => Except.error ("OCR processing failed: " ++ e)

/-- Result of running preprocess + OCR + deferred cleanup for one file:
`outcome` is the thrown error, or `some cleanText` when the trimmed text
is non-empty (record to be saved), or `none` when it is empty (file
skipped); `cleanupScheduled` records whether the line
`fs.unlink(processedPath, () => { })` was reached. -/
structure FileRun where
  outcome : Except String (Option String)
  cleanupScheduled : Bool
deriving Repr

/-- Per-file pipeline body shared by POST /image (server.js:173-197) and
POST /image/:id/regenerate (server.js:324-334): preprocess (a throw
propagates), OCR (a throw propagates), then `fs.unlink(processedPath,
() => { })` whose callback discards any unlink error (the
`env.unlinkWouldFail` flag is deliberately never consulted), then the
`cleanText && cleanText.length > 0` test. -/
def runFile (env : FileEnv) : FileRun :=
  match env.pre with
  | Except.error e => { outcome := Except.error e, cleanupScheduled := false }
  | Except.ok _ =>
    match performOCR env.ocrRaw with
    | Except.error e => { outcome := Except.error e, cleanupScheduled := false }
    | Except.ok cleanText =>
      { outcome := Except.ok (if cleanText.length > 0 then some cleanText else none),
        cleanupScheduled := true }

/-- One entry of the `results` array built by POST /image
(server.js:189-194). -/
structure SavedEntry where
  image : String
  text : String
  saved : Bool
deriving DecidableEq, Repr

/-- State of the `for` loop of POST /image after processing a prefix of
the batch: `results` array so far, the store (records already saved
persist even if a later file throws), the next store-assigned id, and
the error that aborted the loop, if any. -/
structure LoopResult where
  results : List SavedEntry
  store : Store
  nextId : Nat
  err : Option String
deriving Repr

/-- A record as created by `new ImageModel({image, text}); doc.save()`:
the store assigns the id, `createdAt` is the save time (monotone with
the id counter in this model). -/
def mkRecord (nid : Nat) (image text : String) : ImageRecord :=
  { id := nid, image := image, text := text, createdAt := nid }

/-- The `for (const file of req.files)` loop of POST /image
(server.js:167-198): each file runs `preprocessImage`, `performOCR`,
deferred unlink; non-empty text creates a record and pushes a results
entry; empty text only logs; a throw leaves the loop (there is no
per-file try/catch) and propagates to the handler's catch. -/
def processLoop : Store → Nat → List (String × FileEnv) → LoopResult
  | store, nid, [] => { results := [], store := store, nextId := nid, err := none }
  | store, nid, (name, env) :: rest =>
    match (runFile env).outcome with
    | Except.error e => { results := [], store := store, nextId := nid, err := some e }
    | Except.ok none => processLoop store nid rest
    | Except.ok (some t) =>
      let tail := processLoop (store ++ [mkRecord nid name t]) (nid + 1) rest
      { results := { image := name, text := t, saved := true } :: tail.results,
        store := tail.store, nextId := tail.nextId, err := tail.err }

/-- HTTP response of POST /image: status code and the `results` array
(empty on the 400 and 500 paths, which send an error object instead). -/
structure BatchResponse where
  status : Nat
  results : List SavedEntry
deriving DecidableEq, Repr

/-- Full effect of one POST /image request: response plus resulting
store state and id counter. -/
structure PostResult where
  resp : BatchResponse
  store : Store
  nextId : Nat
deriving Repr

/-- POST /image handler (server.js:159-216): 400 when no files were
uploaded; otherwise the loop runs; if it threw, the catch block answers
500 (records saved before the throw remain in the store — there is no
transaction); otherwise 200 with the per-file results. -/
def postImage (store : Store) (nid : Nat) (files : List (String × FileEnv)) : PostResult :=
  if files.isEmpty then
    { resp := { status := 400, results := [] }, store := store, nextId := nid }
  else
    let lr := processLoop store nid files
    match lr.err with
    | some _ => { resp := { status := 500, results := [] }, store := lr.store, nextId := lr.nextId }
    | none => { resp := { status := 200, results := lr.results }, store := lr.store, nextId := lr.nextId }

/-- Whether the pipeline throws on this file (preprocessing or OCR
error). -/
def outcomeThrows (env : FileEnv) : Bool :=
  match (runFile env).outcome with
  | Except.error _ => true
  | Except.ok _ => false

/-- The results entry a file contributes when its trimmed text is
non-empty, `none` when it is skipped or throws. -/
def savedEntryOf (p : String × FileEnv) : Option SavedEntry :=
  match (runFile p.2).outcome with
  | Except.ok (some t) => some { image := p.1, text := t, saved := true }
  | _ => none

/-- Atom of the regular-expression fragment that models MongoDB's
`$regex` operator (PCRE): a literal character or the `.` wildcard.  The
claims are only ever instantiated at patterns inside this fragment. -/
inductive PatAtom where
  | lit (c : Char)
  | dot
deriving DecidableEq, Repr

/-- PCRE parse of the raw query string, restricted to the modelled
fragment: `.` becomes the wildcard, every other character a literal.
server.js:233-234 passes the user query here without any escaping. -/
def parsePat : List Char → List PatAtom
  | [] => []
  | c :: cs => (if c = '.' then PatAtom.dot else PatAtom.lit c) :: parsePat cs

/-- Characters that are metacharacters in PCRE; queries containing any
of these (other than `.`) fall outside the modelled fragment. -/
def isRegexMeta (c : Char) : Bool :=
  c = '.' || c = '*' || c = '+' || c = '?' || c = '^' || c = '$' ||
  c = '(' || c = ')' || c = '[' || c = ']' || c = '\x7b' || c = '\x7d' ||
  c = '|' || c = '\\'

/-- Case-insensitive atom match (the `$options: 'i'` flag): `.` matches
any character except newline, a literal compares after case folding. -/
def matchAtom : PatAtom → Char → Bool
  | PatAtom.dot, c => !(c = '\n')
  | PatAtom.lit d, c => d.toLower = c.toLower

/-- Match the pattern against a prefix of the text. -/
def matchFront : List PatAtom → List Char → Bool
  | [], _ => true
  | _ :: _, [] => false
  | a :: ps, c :: cs => matchAtom a c && matchFront ps cs

/-- Unanchored regex search: the pattern matches at some position. -/
def regexSearch : List PatAtom → List Char → Bool
  | ps, [] => matchFront ps []
  | ps, c :: cs => matchFront ps (c :: cs) || regexSearch ps cs

/-- The record-matching predicate the GET /image search path evaluates:
`text: { $regex: searchQuery, $options: 'i' }` (server.js:233-234) with
the raw, unescaped query. -/
def mongoTextRegexMatch (query text : String) : Bool :=
  regexSearch (parsePat query.toList) text.toList

/-- Case-insensitive literal prefix comparison. -/
def litFront : List Char → List Char → Bool
  | [], _ => true
  | _ :: _, [] => false
  | q :: qs, c :: cs => (q.toLower = c.toLower) && litFront qs cs

/-- Case-insensitive literal substring search. -/
def litSearch : List Char → List Char → Bool
  | qs, [] => litFront qs []
  | qs, c :: cs => litFront qs (c :: cs) || litSearch qs cs

/-- Modelled from the spec: the matching the spec prescribes for
`findByTextSubstring` — the record's text contains the query as a
literal substring, case-insensitively, all pattern metacharacters
escaped.  Kept separate from `mongoTextRegexMatch` (the code's
behaviour) so the two can be compared. -/
def literalSubstringCI (query text : String) : Bool :=
  litSearch query.toList text.toList

/-- JavaScript truthiness of `req.query.search`: `undefined` and the
empty string are falsy, any other string (whitespace included) truthy. -/
def truthy : Option String → Bool
  | none => false
  | some s => !(s = "")

/-- One element of the `results` array of GET /image
(server.js:241-247). -/
structure SearchEntry where
  id : Nat
  image : String
  text : String
  matched : Bool
  createdAt : Nat
deriving DecidableEq, Repr

/-- Response of GET /image: `query` (the raw query or null), `count`,
and the result entries. -/
structure SearchResponse where
  query : Option String
  count : Nat
  results : List SearchEntry
deriving DecidableEq, Repr

/-- Mongo `.sort({ createdAt: -1 })`: records ordered by `createdAt`
descending. -/
def sortByCreatedAtDesc (store : Store) : Store :=
  List.insertionSort (fun a b => b.createdAt ≤ a.createdAt) store

/-- GET /image handler (server.js:220-253): a missing, empty or
whitespace-only query takes the listing path (`find({})`, newest first,
limit 100); otherwise the regex search path with the raw query; every
entry is annotated `matched: searchQuery ? true : false`, and the
response echoes `query: searchQuery || null`. -/
def getImage (store : Store) (searchQuery : Option String) : SearchResponse :=
  let useListing : Bool :=
    match searchQuery with
    | none => true
    | some s => s = "" || jsTrim s = ""
  let docs :=
    if useListing then (sortByCreatedAtDesc store).take 100
    else
      (sortByCreatedAtDesc
        (store.filter (fun r => mongoTextRegexMatch (searchQuery.getD "") r.text))).take 100
  let m := truthy searchQuery
  let results := docs.map (fun d =>
    { id := d.id, image := d.image, text := d.text, matched := m, createdAt := d.createdAt })
  { query := if truthy searchQuery then searchQuery else none,
    count := results.length,
    results := results }

/-- Mongo `findById`: the record with the given id, if any. -/
def findById (store : Store) (id : Nat) : Option ImageRecord :=
  store.find? (fun r => r.id = id)

/-- In-place text update of the record with the given id, as performed
by `findByIdAndUpdate(id, { text }, ...)` and by `doc.text = ...;
doc.save()`. -/
def updateTextById (store : Store) (id : Nat) (t : String) : Store :=
  store.map (fun r => if r.id = id then { r with text := t } else r)

/-- Response-plus-store effect of a single-record operation. -/
structure SingleResult where
  status : Nat
  store : Store
deriving DecidableEq, Repr

/-- PATCH /image/:id handler (server.js:265-303): missing, empty or
whitespace-only `text` is rejected with 400 before any store access;
otherwise `findByIdAndUpdate` stores the trimmed text, or answers 404
when the id does not exist. -/
def patchImage (store : Store) (id : Nat) (text : Option String) : SingleResult :=
  match text with
  | none => { status := 400, store := store }
  | some t =>
    if t = "" || jsTrim t = "" then { status := 400, store := store }
    else
      match findById store id with
      | none => { status := 404, store := store }
      | some _ => { status := 200, store := updateTextById store id (jsTrim t) }

/-- POST /image/:id/regenerate handler (server.js:306-364): 404 when the
record does not exist; 404 when the asset file is missing, before any
preprocessing or OCR; otherwise the per-file pipeline runs against the
record's asset — a throw is answered 500 by the catch block, non-empty
trimmed text overwrites the record's `text` in place (200), empty text
leaves the record untouched (400). -/
def regenerate (store : Store) (id : Nat) (assetPresent : String → Bool)
    (env : FileEnv) : SingleResult :=
  match findById store id with
  | none => { status := 404, store := store }
  | some doc =>
    if assetPresent doc.image then
      match (runFile env).outcome with
      | Except.error _ => { status := 500, store := store }
      | Except.ok (some t) => { status := 200, store := updateTextById store id t }
      | Except.ok none => { status := 400, store := store }
    else { status := 404, store := store }

/-- Effect of DELETE /image/:id: status, resulting store, and whether
`fs.unlinkSync` was attempted on the asset. -/
structure DeleteResult where
  status : Nat
  store : Store
  unlinkAttempted : Bool
deriving DecidableEq, Repr

/-- DELETE /image/:id handler (server.js:367-404): 404 when the record
does not exist; the asset file is removed only when `fs.existsSync`
reports it present (a throwing `unlinkSync` is answered 500 by the catch
block, before the database delete); then `findByIdAndDelete` removes the
record and the handler answers 200. -/
def deleteImage (store : Store) (id : Nat) (fileExists : String → Bool)
    (unlinkThrows : Bool) : DeleteResult :=
  match findById store id with
  | none => { status := 404, store := store, unlinkAttempted := false }
  | some doc =>
    if fileExists doc.image then
      if unlinkThrows then { status := 500, store := store, unlinkAttempted := true }
      else
        { status := 200, store := store.filter (fun r => !(r.id = id)),
          unlinkAttempted := true }
    else
      { status := 200, store := store.filter (fun r => !(r.id = id)),
        unlinkAttempted := false }

/-- Decimal digit as a character, the rendering used by JavaScript
template interpolation of a number. -/
def digitChar (d : Nat) : Char :=
  if d = 0 then '0' else if d = 1 then '1' else if d = 2 then '2'
  else if d = 3 then '3' else if d = 4 then '4' else if d = 5 then '5'
  else if d = 6 then '6' else if d = 7 then '7' else if d = 8 then '8'
  else if d = 9 then '9' else '*'

/-- Numeric value of a decimal digit character (inverse of
`digitChar`); non-digits count 0. -/
def charVal (c : Char) : Nat :=
  if c = '1' then 1 else if c = '2' then 2 else if c = '3' then 3
  else if c = '4' then 4 else if c = '5' then 5 else if c = '6' then 6
  else if c = '7' then 7 else if c = '8' then 8 else if c = '9' then 9
  else 0

/-- Value of a most-significant-first decimal digit string. -/
def valChars (l : List Char) : Nat :=
  l.foldl (fun acc c => acc * 10 + charVal c) 0

/-- Digits of `n`, most significant first; the first argument is
structural fuel bounding the recursion depth (`n` itself suffices). -/
def toDecimalAux : Nat → Nat → List Char
  | 0, _ => []
  | fuel + 1, n =>
    if n = 0 then [] else toDecimalAux fuel (n / 10) ++ [digitChar (n % 10)]

/-- Decimal rendering of a natural number, modelling the JavaScript
interpolation `${Date.now()}` (server.js:70). -/
def decimalRender (n : Nat) : String :=
  if n = 0 then "0" else String.mk (toDecimalAux n n)

/-- Resampling kernel passed to `sharp.resize`. -/
inductive ResizeKernel where
  | lanczos3
deriving DecidableEq, Repr

/-- One operation of the sharp processing chain. -/
inductive SharpOp where
  | resize (width : Nat) (kernel : ResizeKernel)
  | grayscale
  | normalize
  | sharpen (sigma : Nat)
  | threshold (cutoff : Nat)
deriving DecidableEq, Repr

/-- Effect of one successful `preprocessImage` call: the scratch output
path, the operation chain applied, the PNG compression level of the
output, and the file-system reads and writes performed.  (A sharp
failure — unreadable source — is modelled at the pipeline level by
`FileEnv.pre`.) -/
structure PreprocessRun where
  outputPath : String
  ops : List SharpOp
  pngCompressionLevel : Nat
  reads : List String
  writes : List String
deriving DecidableEq, Repr

/-- Model of `preprocessImage` (server.js:69-95): output path
`temp/processed_<Date.now()>.png`; a 2x lanczos3 upscale exactly when
the metadata width is truthy (defined and non-zero) and below 1000;
then grayscale, normalize, sharpen (sigma 1), threshold 128; written as
PNG with `compressionLevel: 0`; the source is only read. -/
def preprocessImage (inputPath : String) (metadataWidth : Option Nat)
    (now : Nat) : PreprocessRun :=
  let outputPath := "temp/processed_" ++ decimalRender now ++ ".png"
  let resizeOps : List SharpOp :=
    match metadataWidth with
    | some w =>
      if !(w = 0) && w < 1000 then [SharpOp.resize (w * 2) ResizeKernel.lanczos3] else []
    | none => []
  { outputPath := outputPath,
    ops := resizeOps ++
      [SharpOp.grayscale, SharpOp.normalize, SharpOp.sharpen 1, SharpOp.threshold 128],
    pngCompressionLevel := 0,
    reads := [inputPath],
    writes := [outputPath] }

/-! Helper lemmas about the per-file pipeline and the upload loop. -/

theorem runFile_ignores_unlink (p : Except String Unit) (o : Except String String)
    (u u' : Bool) : runFile ⟨p, o, u⟩ = runFile ⟨p, o, u'⟩ := rfl

theorem runFile_cleanup_iff (env : FileEnv) :
    (runFile env).cleanupScheduled = true ↔
      env.pre = Except.ok () ∧ ∃ raw, env.ocrRaw = Except.ok raw := by
  obtain ⟨p, o, u⟩ := env
  cases p with
  | error e => simp [runFile]
  | ok v =>
    cases v
    cases o with
    | error e => simp [runFile, performOCR]
    | ok raw => simp [runFile, performOCR]

theorem runFile_ok_some_ne_empty (env : FileEnv) (t : String)
    (h : (runFile env).outcome = Except.ok (some t)) : t ≠ "" := by
  obtain ⟨p, o, u⟩ := env
  cases p with
  | error e => simp [runFile] at h
  | ok v =>
    cases o with
    | error e => simp [runFile, performOCR] at h
    | ok raw =>
      simp [runFile, performOCR] at h
      rcases h with ⟨hl, ht⟩
      intro hemp
      rw [ht, hemp] at hl
      exact absurd hl (by decide)

theorem processLoop_err_none_iff (files : List (String × FileEnv)) :
    ∀ store nid, (processLoop store nid files).err = none ↔
      ∀ p ∈ files, outcomeThrows p.2 = false := by
  induction files with
  | nil => intro store nid; simp [processLoop]
  | cons hd rest ih =>
    intro store nid
    obtain ⟨name, env⟩ := hd
    rcases hout : (runFile env).outcome with e | v
    · simp [processLoop, hout, outcomeThrows]
    · cases v with
      | none =>
        simp only [processLoop, hout]
        rw [ih]
        constructor
        · intro h p hp
          rcases List.mem_cons.mp hp with rfl | hmem
          · simp [outcomeThrows, hout]
          · exact h p hmem
        · intro h p hp
          exact h p (List.mem_cons_of_mem _ hp)
      | some t =>
        simp only [processLoop, hout]
        rw [ih]
        constructor
        · intro h p hp
          rcases List.mem_cons.mp hp with rfl | hmem
          · simp [outcomeThrows, hout]
          · exact h p hmem
        · intro h p hp
          exact h p (List.mem_cons_of_mem _ hp)

theorem processLoop_results_of_no_throw (files : List (String × FileEnv)) :
    ∀ store nid, (∀ p ∈ files, outcomeThrows p.2 = false) →
      (processLoop store nid files).results = files.filterMap savedEntryOf := by
  induction files with
  | nil => intro store nid _; simp [processLoop]
  | cons hd rest ih =>
    intro store nid h
    obtain ⟨name, env⟩ := hd
    have hrest : ∀ p ∈ rest, outcomeThrows p.2 = false :=
      fun p hp => h p (List.mem_cons_of_mem _ hp)
    rcases hout : (runFile env).outcome with e | v
    · have := h ⟨name, env⟩ (List.mem_cons_self _ _)
      simp [outcomeThrows, hout] at this
    · cases v with
      | none =>
        simp only [processLoop, hout, List.filterMap_cons]
        rw [ih _ _ hrest]
        simp [savedEntryOf, hout]
      | some t =>
        simp only [processLoop, hout, List.filterMap_cons]
        rw [ih _ _ hrest]
        simp [savedEntryOf, hout]

theorem processLoop_store_mem (files : List (String × FileEnv)) :
    ∀ store nid r, r ∈ (processLoop store nid files).store →
      r ∈ store ∨ r.text ≠ "" := by
  induction files with
  | nil => intro store nid r h; exact Or.inl (by simpa [processLoop] using h)
  | cons hd rest ih =>
    intro store nid r h
    obtain ⟨name, env⟩ := hd
    rcases hout : (runFile env).outcome with e | v
    · simp only [processLoop, hout] at h
      exact Or.inl h
    · cases v with
      | none =>
        simp only [processLoop, hout] at h
        exact ih _ _ _ h
      | some t =>
        simp only [processLoop, hout] at h
        rcases ih _ _ _ h with hmem | hne
        · rcases List.mem_append.mp hmem with hmem' | hnew
          · exact Or.inl hmem'
          · right
            have : r = mkRecord nid name t := by simpa using hnew
            rw [this]
            exact runFile_ok_some_ne_empty env t hout
        · exact Or.inr hne

/-- C1: the claim that a per-file pipeline failure is converted into a
per-file outcome and the batch still answers 2xx fails on the code: a
two-file batch whose first file fails preprocessing gets a batch-level
500 with an empty results list, and the healthy second file is never
processed (the store stays empty). -/
theorem batch_failure_aborts_batch :
    (postImage [] 0
      [("a.png", ⟨Except.error "Input file contains unsupported image format",
                  Except.ok "x", false⟩),
       ("b.png", ⟨Except.ok (), Except.ok "hello", false⟩)]).resp.status = 500 ∧
    (postImage [] 0
      [("a.png", ⟨Except.error "Input file contains unsupported image format",
                  Except.ok "x", false⟩),
       ("b.png", ⟨Except.ok (), Except.ok "hello", false⟩)]).resp.results = [] ∧
    (postImage [] 0
      [("a.png", ⟨Except.error "Input file contains unsupported image format",
                  Except.ok "x", false⟩),
       ("b.png", ⟨Except.ok (), Except.ok "hello", false⟩)]).store = [] := by
  decide

/-- C1 (amended): a 400 batch-level response occurs exactly when the
batch contained zero files; when every file's preprocessing and OCR
succeed the response is 200 enumerating the outcomes of the files with
non-empty text; but a pipeline failure on any file aborts the batch
with a 500 response carrying no per-file outcomes. -/
theorem postImage_batch_semantics (store : Store) (nid : Nat)
    (files : List (String × FileEnv)) :
    ((postImage store nid files).resp.status = 400 ↔ files = []) ∧
    (files ≠ [] → (∀ p ∈ files, outcomeThrows p.2 = false) →
      (postImage store nid files).resp.status = 200 ∧
      (postImage store nid files).resp.results = files.filterMap savedEntryOf) ∧
    (files ≠ [] → (∃ p ∈ files, outcomeThrows p.2 = true) →
      (postImage store nid files).resp.status = 500 ∧
      (postImage store nid files).resp.results = []) := by
  refine ⟨?_, ?_, ?_⟩
  · constructor
    · intro h
      by_contra hne
      have hne' : ¬ files.isEmpty := by
        simpa [List.isEmpty_iff] using hne
      simp only [postImage, if_neg hne'] at h
      rcases herr : (processLoop store nid files).err with _ | e
      · rw [herr] at h; simp at h
      · rw [herr] at h; simp at h
    · intro h
      subst h
      simp [postImage]
  · intro hne hok
    have hne' : ¬ files.isEmpty := by
      simpa [List.isEmpty_iff] using hne
    have herr : (processLoop store nid files).err = none :=
      (processLoop_err_none_iff files store nid).mpr hok
    simp only [postImage, if_neg hne', herr]
    exact ⟨by trivial, processLoop_results_of_no_throw files store nid hok⟩
  · intro hne hbad
    have hne' : ¬ files.isEmpty := by
      simpa [List.isEmpty_iff] using hne
    have herr : (processLoop store nid files).err ≠ none := by
      intro h
      obtain ⟨p, hp, hthrow⟩ := hbad
      have := (processLoop_err_none_iff files store nid).mp h p hp
      rw [hthrow] at this
      exact absurd this (by simp)
    rcases herr' : (processLoop store nid files).err with _ | e
    · exact absurd herr' herr
    · simp [postImage, hne', herr', hne]

/-- C1 witness: a one-file batch whose file succeeds with non-empty text
answers 200 with that file's outcome. -/
theorem postImage_batch_semantics_witness :
    ([("a.png", (⟨Except.ok (), Except.ok "hello", false⟩ : FileEnv))] ≠
      ([] : List (String × FileEnv))) ∧
    (∀ p ∈ [("a.png", (⟨Except.ok (), Except.ok "hello", false⟩ : FileEnv))],
      outcomeThrows p.2 = false) ∧
    (postImage [] 0
      [("a.png", ⟨Except.ok (), Except.ok "hello", false⟩)]).resp.status = 200 ∧
    (postImage [] 0
      [("a.png", ⟨Except.ok (), Except.ok "hello", false⟩)]).resp.results =
      [("a.png", (⟨Except.ok (), Except.ok "hello", false⟩ : FileEnv))].filterMap
        savedEntryOf := by
  refine ⟨by decide, by decide, ?_⟩
  exact (postImage_batch_semantics [] 0 _).2.1 (by decide) (by decide)

/-- C3: the claim that the transient artifact is scheduled for removal
whether OCR succeeds or fails is refuted: when the OCR call throws, the
`fs.unlink` line after the `await` is never reached. -/
theorem ocr_failure_skips_cleanup :
    (runFile ⟨Except.ok (), Except.error "engine crashed", false⟩).cleanupScheduled
      = false := by
  decide

/-- C3 (amended): the transient artifact is scheduled for best-effort
removal exactly when both preprocessing and the OCR call succeed — an
OCR failure propagates past the cleanup line and the artifact leaks;
when the removal does run, its failure or success cannot influence the
outcome (the unlink callback discards any error). -/
theorem cleanup_scheduled_iff_ocr_succeeds (p : Except String Unit)
    (o : Except String String) (u u' : Bool) :
    runFile ⟨p, o, u⟩ = runFile ⟨p, o, u'⟩ ∧
    ((runFile ⟨p, o, u⟩).cleanupScheduled = true ↔
      p = Except.ok () ∧ ∃ raw, o = Except.ok raw) := by
  exact ⟨runFile_ignores_unlink p o u u', runFile_cleanup_iff ⟨p, o, u⟩⟩

/-- C5: every record present after a POST /image batch either predates
the batch or has non-empty text, and a file whose trimmed OCR text is
empty creates no record: the single-file batch answers 200 with an
empty results list, the store is unchanged, and the GET /image record
count is unchanged. -/
theorem records_require_nonempty_text (store : Store) (nid : Nat)
    (files : List (String × FileEnv)) :
    (∀ r ∈ (postImage store nid files).store, r ∈ store ∨ r.text ≠ "") ∧
    (∀ name env, (runFile env).outcome = Except.ok none →
      postImage store nid [(name, env)] =
        { resp := { status := 200, results := [] }, store := store, nextId := nid } ∧
      (getImage (postImage store nid [(name, env)]).store none).count =
        (getImage store none).count) := by
  constructor
  · intro r hr
    by_cases hemp : files.isEmpty
    · simp only [postImage, if_pos hemp] at hr
      exact Or.inl hr
    · simp only [postImage, if_neg hemp] at hr
      rcases herr : (processLoop store nid files).err with _ | e
      · rw [herr] at hr
        exact processLoop_store_mem files store nid r hr
      · rw [herr] at hr
        exact processLoop_store_mem files store nid r hr
  · intro name env hskip
    have hpost : postImage store nid [(name, env)] =
        { resp := { status := 200, results := [] }, store := store, nextId := nid } := by
      simp [postImage, processLoop, hskip]
    exact ⟨hpost, by rw [hpost]⟩

/-- C5 witness: a file whose OCR text is all whitespace is skipped and
the store and listing count are unchanged. -/
theorem records_require_nonempty_text_witness :
    (runFile ⟨Except.ok (), Except.ok "   ", false⟩).outcome = Except.ok none ∧
    postImage [⟨1, "old.png", "kept", 1⟩] 2
      [("a.png", ⟨Except.ok (), Except.ok "   ", false⟩)] =
      { resp := { status := 200, results := [] },
        store := [⟨1, "old.png", "kept", 1⟩], nextId := 2 } ∧
    (getImage (postImage [⟨1, "old.png", "kept", 1⟩] 2
      [("a.png", ⟨Except.ok (), Except.ok "   ", false⟩)]).store none).count =
      (getImage [⟨1, "old.png", "kept", 1⟩] none).count := by
  refine ⟨rfl, ?_⟩
  exact (records_require_nonempty_text [⟨1, "old.png", "kept", 1⟩] 2
    [("a.png", ⟨Except.ok (), Except.ok "   ", false⟩)]).2 "a.png"
    ⟨Except.ok (), Except.ok "   ", false⟩ rfl

/-! Helper lemmas about the record store operations. -/

theorem string_ne_empty_iff_length_pos (s : String) : s ≠ "" ↔ 0 < s.length := by
  obtain ⟨l⟩ := s
  cases l with
  | nil => simp [String.length]
  | cons c cs =>
    simp only [String.length]
    constructor
    · intro _; simp
    · intro _ h
      have : (String.mk (c :: cs)).data = ("" : String).data := by rw [h]
      simp at this

theorem findById_updateTextById (store : Store) (id : Nat) (t : String) :
    findById (updateTextById store id t) id =
      (findById store id).map (fun r => { r with text := t }) := by
  induction store with
  | nil => simp [findById, updateTextById]
  | cons r rest ih =>
    by_cases hr : r.id = id
    · simp [findById, updateTextById, List.find?, hr]
    · simp only [findById, updateTextById, List.map_cons, List.find?, if_neg hr]
      rw [decide_eq_false hr]
      simpa [findById, updateTextById] using ih

theorem updateTextById_length (store : Store) (id : Nat) (t : String) :
    (updateTextById store id t).length = store.length := by
  simp [updateTextById]

theorem updateTextById_identity_fields (store : Store) (id : Nat) (t : String) :
    (updateTextById store id t).map (fun r => (r.id, r.image, r.createdAt)) =
      store.map (fun r => (r.id, r.image, r.createdAt)) := by
  simp only [updateTextById, List.map_map]
  have hfun : ((fun r : ImageRecord => (r.id, r.image, r.createdAt)) ∘
      (fun r : ImageRecord => if r.id = id then { r with text := t } else r)) =
      fun r : ImageRecord => (r.id, r.image, r.createdAt) := by
    funext r
    by_cases hr : r.id = id <;> simp [hr]
  rw [hfun]

theorem findById_filter_out (store : Store) (id : Nat) :
    findById (store.filter (fun r => !(r.id = id))) id = none := by
  rw [findById, List.find?_eq_none]
  intro r hr
  have := (List.mem_filter.mp hr).2
  simpa using this

/-- C4: regenerating a record whose asset is present leaves the record
and its prior text completely untouched (status 400) when the re-run
OCR yields empty trimmed text, and overwrites the record's text in
place — same record count, same ids, filenames and creation times —
(status 200) when it yields non-empty text. -/
theorem regenerate_skip_or_overwrite (store : Store) (id : Nat)
    (assetPresent : String → Bool) (env : FileEnv) (doc : ImageRecord) (raw : String)
    (hdoc : findById store id = some doc)
    (hasset : assetPresent doc.image = true)
    (hpre : env.pre = Except.ok ())
    (hocr : env.ocrRaw = Except.ok raw) :
    (jsTrim raw = "" →
      regenerate store id assetPresent env = { status := 400, store := store }) ∧
    (jsTrim raw ≠ "" →
      (regenerate store id assetPresent env).status = 200 ∧
      (regenerate store id assetPresent env).store =
        updateTextById store id (jsTrim raw) ∧
      findById (regenerate store id assetPresent env).store id =
        some { doc with text := jsTrim raw } ∧
      (regenerate store id assetPresent env).store.length = store.length ∧
      (regenerate store id assetPresent env).store.map
          (fun r => (r.id, r.image, r.createdAt)) =
        store.map (fun r => (r.id, r.image, r.createdAt))) := by
  obtain ⟨p, o, u⟩ := env
  cases hpre
  cases hocr
  constructor
  · intro hempty
    have hrun : (runFile ⟨Except.ok (), Except.ok raw, u⟩).outcome = Except.ok none := by
      simp [runFile, performOCR, hempty]
    simp [regenerate, hdoc, hasset, hrun]
  · intro hne
    have hlen : 0 < (jsTrim raw).length :=
      (string_ne_empty_iff_length_pos (jsTrim raw)).mp hne
    have hrun : (runFile ⟨Except.ok (), Except.ok raw, u⟩).outcome =
        Except.ok (some (jsTrim raw)) := by
      simp [runFile, performOCR, hlen]
    have hreg : regenerate store id assetPresent ⟨Except.ok (), Except.ok raw, u⟩ =
        { status := 200, store := updateTextById store id (jsTrim raw) } := by
      simp [regenerate, hdoc, hasset, hrun]
    refine ⟨by rw [hreg], by rw [hreg], ?_, ?_, ?_⟩
    · rw [hreg]
      show findById (updateTextById store id (jsTrim raw)) id = _
      rw [findById_updateTextById, hdoc]
      rfl
    · rw [hreg]
      exact updateTextById_length store id (jsTrim raw)
    · rw [hreg]
      exact updateTextById_identity_fields store id (jsTrim raw)

/-- C4 witness: on a one-record store, whitespace OCR output leaves the
record untouched with a 400, and the theorem applies with concrete
hypothesis discharges. -/
theorem regenerate_skip_or_overwrite_witness :
    findById [⟨1, "a.png", "old text", 1⟩] 1 = some ⟨1, "a.png", "old text", 1⟩ ∧
    jsTrim "   " = "" ∧
    regenerate [⟨1, "a.png", "old text", 1⟩] 1 (fun _ => true)
        ⟨Except.ok (), Except.ok "   ", false⟩ =
      { status := 400, store := [⟨1, "a.png", "old text", 1⟩] } := by
  refine ⟨by decide, by decide, ?_⟩
  exact (regenerate_skip_or_overwrite [⟨1, "a.png", "old text", 1⟩] 1 (fun _ => true)
    ⟨Except.ok (), Except.ok "   ", false⟩ ⟨1, "a.png", "old text", 1⟩ "   "
    (by decide) rfl rfl rfl).1 (by decide)

/-- C7: PATCH /image/:id rejects a missing, empty or whitespace-only
text with 400 and no store change; on a missing id it never succeeds
and changes nothing, and with text that survives validation (non-empty
after trimming) it answers exactly NotFound (404); with text "ok" on an
existing record it answers 200 and the stored text becomes "ok". -/
theorem patch_validation_and_update (store : Store) (id : Nat) :
    (patchImage store id none = { status := 400, store := store }) ∧
    (∀ t, jsTrim t = "" →
      patchImage store id (some t) = { status := 400, store := store }) ∧
    (findById store id = none → ∀ t,
      (patchImage store id (some t)).status ≠ 200 ∧
      (patchImage store id (some t)).store = store) ∧
    (findById store id = none → ∀ t, jsTrim t ≠ "" →
      patchImage store id (some t) = { status := 404, store := store }) ∧
    (∀ doc, findById store id = some doc →
      (patchImage store id (some "ok")).status = 200 ∧
      findById (patchImage store id (some "ok")).store id =
        some { doc with text := "ok" }) := by
  refine ⟨rfl, ?_, ?_, ?_, ?_⟩
  · intro t ht
    simp [patchImage, ht]
  · intro hnone t
    by_cases hbad : t = "" || jsTrim t = ""
    · simp [patchImage, hbad]
    · simp [patchImage, hbad, hnone]
  · intro hnone t htrim
    have ht : ¬(t = "") := by
      intro h
      rw [h] at htrim
      exact htrim (by decide)
    simp [patchImage, ht, htrim, hnone]
  · intro doc hdoc
    have htrim : jsTrim "ok" = "ok" := by decide
    have hpatch : patchImage store id (some "ok") =
        { status := 200, store := updateTextById store id "ok" } := by
      simp [patchImage, htrim, hdoc]
    refine ⟨by rw [hpatch], ?_⟩
    rw [hpatch]
    show findById (updateTextById store id "ok") id = _
    rw [findById_updateTextById, hdoc]
    rfl

/-- C7 witness: concrete one-record store exercising the whitespace
rejection, the not-found case and the successful update. -/
theorem patch_validation_and_update_witness :
    jsTrim "   " = "" ∧
    patchImage [⟨1, "a.png", "old", 1⟩] 1 (some "   ") =
      { status := 400, store := [⟨1, "a.png", "old", 1⟩] } ∧
    findById [⟨1, "a.png", "old", 1⟩] 2 = none ∧
    jsTrim "ok" ≠ "" ∧
    patchImage [⟨1, "a.png", "old", 1⟩] 2 (some "ok") =
      { status := 404, store := [⟨1, "a.png", "old", 1⟩] } ∧
    findById [⟨1, "a.png", "old", 1⟩] 1 = some ⟨1, "a.png", "old", 1⟩ ∧
    (patchImage [⟨1, "a.png", "old", 1⟩] 1 (some "ok")).status = 200 ∧
    findById (patchImage [⟨1, "a.png", "old", 1⟩] 1 (some "ok")).store 1 =
      some ⟨1, "a.png", "ok", 1⟩ := by
  refine ⟨by decide, ?_, by decide, by decide, ?_, by decide, ?_, ?_⟩
  · exact (patch_validation_and_update [⟨1, "a.png", "old", 1⟩] 1).2.1 "   " (by decide)
  · exact (patch_validation_and_update [⟨1, "a.png", "old", 1⟩] 2).2.2.2.1
      (by decide) "ok" (by decide)
  · exact ((patch_validation_and_update [⟨1, "a.png", "old", 1⟩] 1).2.2.2.2
      ⟨1, "a.png", "old", 1⟩ (by decide)).1
  · exact ((patch_validation_and_update [⟨1, "a.png", "old", 1⟩] 1).2.2.2.2
      ⟨1, "a.png", "old", 1⟩ (by decide)).2

/-- C9: a regeneration request on an existing record whose asset is
missing answers 404 with the store untouched, and the outcome is the
same whatever preprocessing and OCR would have returned — the pipeline
is never consulted. -/
theorem regenerate_missing_asset_fails (store : Store) (id : Nat)
    (assetPresent : String → Bool) (doc : ImageRecord)
    (hdoc : findById store id = some doc)
    (hasset : assetPresent doc.image = false) :
    ∀ env : FileEnv,
      regenerate store id assetPresent env = { status := 404, store := store } := by
  intro env
  simp [regenerate, hdoc, hasset]

/-- C9 witness: concrete record whose asset-presence check fails. -/
theorem regenerate_missing_asset_fails_witness :
    findById [⟨1, "gone.png", "old", 1⟩] 1 = some ⟨1, "gone.png", "old", 1⟩ ∧
    ((fun _ => false) : String → Bool) "gone.png" = false ∧
    regenerate [⟨1, "gone.png", "old", 1⟩] 1 (fun _ => false)
        ⟨Except.error "unreadable", Except.error "engine crashed", false⟩ =
      { status := 404, store := [⟨1, "gone.png", "old", 1⟩] } := by
  refine ⟨by decide, rfl, ?_⟩
  exact regenerate_missing_asset_fails [⟨1, "gone.png", "old", 1⟩] 1 (fun _ => false)
    ⟨1, "gone.png", "old", 1⟩ (by decide) rfl
    ⟨Except.error "unreadable", Except.error "engine crashed", false⟩

/-- C10: deleting an existing record whose asset file is already absent
skips the file-removal step (no unlink is attempted, so it cannot
fail), still deletes the database record and answers 200, whatever an
unlink would have done. -/
theorem delete_dangling_record_succeeds (store : Store) (id : Nat)
    (fileExists : String → Bool) (doc : ImageRecord)
    (hdoc : findById store id = some doc)
    (hfile : fileExists doc.image = false) :
    ∀ unlinkThrows : Bool,
      deleteImage store id fileExists unlinkThrows =
        { status := 200, store := store.filter (fun r => !(r.id = id)),
          unlinkAttempted := false } ∧
      findById (deleteImage store id fileExists unlinkThrows).store id = none := by
  intro u
  have h : deleteImage store id fileExists u =
      { status := 200, store := store.filter (fun r => !(r.id = id)),
        unlinkAttempted := false } := by
    simp [deleteImage, hdoc, hfile]
  exact ⟨h, by rw [h]; exact findById_filter_out store id⟩

/-- C10 witness: concrete dangling record removed even though its file
is gone and the unlink would have thrown. -/
theorem delete_dangling_record_succeeds_witness :
    findById [⟨1, "gone.png", "txt", 1⟩] 1 = some ⟨1, "gone.png", "txt", 1⟩ ∧
    ((fun _ => false) : String → Bool) "gone.png" = false ∧
    deleteImage [⟨1, "gone.png", "txt", 1⟩] 1 (fun _ => false) true =
      { status := 200, store := [], unlinkAttempted := false } ∧
    findById (deleteImage [⟨1, "gone.png", "txt", 1⟩] 1 (fun _ => false) true).store 1 =
      none := by
  refine ⟨by decide, rfl, ?_, ?_⟩
  · exact (delete_dangling_record_succeeds [⟨1, "gone.png", "txt", 1⟩] 1 (fun _ => false)
      ⟨1, "gone.png", "txt", 1⟩ (by decide) rfl true).1
  · exact (delete_dangling_record_succeeds [⟨1, "gone.png", "txt", 1⟩] 1 (fun _ => false)
      ⟨1, "gone.png", "txt", 1⟩ (by decide) rfl true).2

/-! Helper lemmas about the regex search model. -/

theorem parsePat_of_no_meta (qs : List Char)
    (h : ∀ c ∈ qs, isRegexMeta c = false) : parsePat qs = qs.map PatAtom.lit := by
  induction qs with
  | nil => rfl
  | cons c cs ih =>
    have hc : isRegexMeta c = false := h c (List.mem_cons_self _ _)
    have hdot : ¬(c = '.') := by
      intro hc'
      rw [hc'] at hc
      exact absurd hc (by decide)
    simp only [parsePat, List.map_cons, if_neg hdot]
    rw [ih (fun d hd => h d (List.mem_cons_of_mem _ hd))]

theorem matchFront_map_lit (qs : List Char) :
    ∀ cs, matchFront (qs.map PatAtom.lit) cs = litFront qs cs := by
  induction qs with
  | nil => intro cs; rfl
  | cons q qs ih =>
    intro cs
    cases cs with
    | nil => rfl
    | cons c cs => simp [matchFront, litFront, matchAtom, ih]

theorem regexSearch_map_lit (qs cs : List Char) :
    regexSearch (qs.map PatAtom.lit) cs = litSearch qs cs := by
  induction cs with
  | nil => simp [regexSearch, litSearch, matchFront_map_lit]
  | cons c cs ih => simp [regexSearch, litSearch, matchFront_map_lit, ih]

/-- C2: the claim that pattern metacharacters in the query are escaped
before matching is refuted: GET /image with the metacharacter query "."
returns the record whose text is "Nutrition Facts", although that text
does not literally contain a dot. -/
theorem metacharacter_query_not_escaped :
    (getImage [⟨1, "img.png", "Nutrition Facts", 5⟩] (some ".")).results.map
        SearchEntry.id = [1] ∧
    literalSubstringCI "." "Nutrition Facts" = false := by
  decide

/-- C2 (amended): search matches a record when its text matches the raw
query interpreted as a case-insensitive regular expression — the code
does not escape pattern metacharacters; for queries containing no
metacharacter this coincides with case-insensitive literal substring
matching, so "Nutrition Facts" matches "nutrition", "FACTS" and
"on Fac" and not "nutritions", but a metacharacter query can match
records that do not literally contain it. -/
theorem search_literal_iff_meta_free :
    (∀ q t : String, (∀ c ∈ q.toList, isRegexMeta c = false) →
      mongoTextRegexMatch q t = literalSubstringCI q t) ∧
    mongoTextRegexMatch "nutrition" "Nutrition Facts" = true ∧
    mongoTextRegexMatch "FACTS" "Nutrition Facts" = true ∧
    mongoTextRegexMatch "on Fac" "Nutrition Facts" = true ∧
    mongoTextRegexMatch "nutritions" "Nutrition Facts" = false := by
  refine ⟨?_, by decide, by decide, by decide, by decide⟩
  intro q t hq
  rw [mongoTextRegexMatch, parsePat_of_no_meta q.toList hq, regexSearch_map_lit]
  rfl

/-- C2 witness: the meta-free query "nutrition" matches under the code
exactly as literal case-insensitive substring containment prescribes. -/
theorem search_literal_iff_meta_free_witness :
    (∀ c ∈ ("nutrition" : String).toList, isRegexMeta c = false) ∧
    mongoTextRegexMatch "nutrition" "Nutrition Facts" =
      literalSubstringCI "nutrition" "Nutrition Facts" := by
  exact ⟨by decide,
    search_literal_iff_meta_free.1 "nutrition" "Nutrition Facts" (by decide)⟩

/-- C6: the claim that results carry matched = false exactly when they
were produced by the unconditional listing path, including for a
whitespace-only query, is refuted: the query " " takes the listing path
(the record "hello" is returned although it does not contain a space),
yet its entry is annotated matched = true. -/
theorem whitespace_query_marked_matched :
    (getImage [⟨1, "a.png", "hello", 3⟩] (some " ")).results =
      [⟨1, "a.png", "hello", true, 3⟩] ∧
    mongoTextRegexMatch " " "hello" = false := by
  decide

/-- C6 (amended): an empty or missing query returns the most recent
records with matched = false; a whitespace-only but non-empty query
also takes the unconditional listing path, but its results are
annotated matched = true, because the flag reflects JavaScript
truthiness of the raw query rather than which path ran; a query that is
non-empty after trimming takes the text-matching path with
matched = true. -/
theorem getImage_paths_and_matched_flag (store : Store) :
    ((getImage store none).results =
      ((sortByCreatedAtDesc store).take 100).map
        (fun d => ⟨d.id, d.image, d.text, false, d.createdAt⟩)) ∧
    ((getImage store (some "")).results =
      ((sortByCreatedAtDesc store).take 100).map
        (fun d => ⟨d.id, d.image, d.text, false, d.createdAt⟩)) ∧
    (∀ s, s ≠ "" → jsTrim s = "" →
      (getImage store (some s)).results =
        ((sortByCreatedAtDesc store).take 100).map
          (fun d => ⟨d.id, d.image, d.text, true, d.createdAt⟩)) ∧
    (∀ s, jsTrim s ≠ "" →
      (getImage store (some s)).results =
        ((sortByCreatedAtDesc
            (store.filter (fun r => mongoTextRegexMatch s r.text))).take 100).map
          (fun d => ⟨d.id, d.image, d.text, true, d.createdAt⟩)) := by
  refine ⟨rfl, rfl, ?_, ?_⟩
  · intro s hs htrim
    simp [getImage, truthy, hs, htrim]
  · intro s htrim
    have hs : ¬(s = "") := by
      intro h
      rw [h] at htrim
      exact htrim (by decide)
    simp [getImage, truthy, hs, htrim]

/-- C6 witness: the concrete whitespace query " " and the concrete
search query "x" on a one-record store. -/
theorem getImage_paths_and_matched_flag_witness :
    (" " ≠ "") ∧ jsTrim " " = "" ∧
    (getImage [⟨1, "a.png", "hello", 3⟩] (some " ")).results =
      ((sortByCreatedAtDesc [⟨1, "a.png", "hello", 3⟩]).take 100).map
        (fun d => ⟨d.id, d.image, d.text, true, d.createdAt⟩) ∧
    jsTrim "ell" ≠ "" ∧
    (getImage [⟨1, "a.png", "hello", 3⟩] (some "ell")).results =
      ((sortByCreatedAtDesc
          ([⟨1, "a.png", "hello", 3⟩].filter
            (fun r => mongoTextRegexMatch "ell" r.text))).take 100).map
        (fun d => ⟨d.id, d.image, d.text, true, d.createdAt⟩) := by
  refine ⟨by decide, by decide, ?_, by decide, ?_⟩
  · exact (getImage_paths_and_matched_flag [⟨1, "a.png", "hello", 3⟩]).2.2.1 " "
      (by decide) (by decide)
  · exact (getImage_paths_and_matched_flag [⟨1, "a.png", "hello", 3⟩]).2.2.2 "ell"
      (by decide)

/-! Helper lemmas about the decimal rendering of the scratch-file
timestamp. -/

theorem charVal_digitChar : ∀ d < 10, charVal (digitChar d) = d := by decide

theorem valChars_append (l : List Char) (c : Char) :
    valChars (l ++ [c]) = valChars l * 10 + charVal c := by
  simp [valChars, List.foldl_append]

theorem valChars_toDecimalAux : ∀ fuel n, n ≤ fuel →
    valChars (toDecimalAux fuel n) = n := by
  intro fuel
  induction fuel with
  | zero =>
    intro n h
    have : n = 0 := Nat.le_zero.mp h
    simp [toDecimalAux, valChars, this]
  | succ fuel ih =>
    intro n h
    by_cases hn : n = 0
    · simp [toDecimalAux, valChars, hn]
    · have hdiv : n / 10 ≤ fuel := by omega
      simp only [toDecimalAux, if_neg hn]
      rw [valChars_append, ih _ hdiv, charVal_digitChar (n % 10) (by omega)]
      omega

theorem valChars_decimalRender (n : Nat) : valChars (decimalRender n).data = n := by
  by_cases hn : n = 0
  · subst hn; decide
  · simp only [decimalRender, if_neg hn]
    exact valChars_toDecimalAux n n (Nat.le_refl n)

theorem string_data_inj {s t : String} (h : s.data = t.data) : s = t := by
  cases s; cases t; cases h; rfl

theorem decimalRender_inj {n m : Nat} (h : decimalRender n = decimalRender m) :
    n = m := by
  have hval := congrArg (fun s => valChars s.data) h
  simpa [valChars_decimalRender] using hval

theorem scratch_path_inj {n m : Nat}
    (h : "temp/processed_" ++ decimalRender n ++ ".png" =
      "temp/processed_" ++ decimalRender m ++ ".png") : n = m := by
  have hdata : (("temp/processed_" : String).data ++ (decimalRender n).data) ++
      (".png" : String).data =
      (("temp/processed_" : String).data ++ (decimalRender m).data) ++
      (".png" : String).data := congrArg String.data h
  have h1 := List.append_cancel_right hdata
  have h2 := List.append_cancel_left h1
  exact decimalRender_inj (string_data_inj h2)

theorem scratch_path_take5 (x : String) :
    ("temp/processed_" ++ x).toList.take 5 = "temp/".toList := rfl

/-- C8: for a valid source image (defined, positive metadata width) the
preprocessor applies a 2x lanczos3 upscale exactly when the width is
below 1000, then grayscale, contrast normalization, a sharpening pass
and binarization at the fixed threshold 128, and writes exactly one
uncompressed PNG (`compressionLevel: 0`) to the timestamp-named scratch
path `temp/processed_<now>.png` — a path distinct for distinct
timestamps; the source, which does not live in the scratch area, is
only read and never written. -/
theorem preprocess_chain_and_scratch_output (inputPath : String) (w now : Nat)
    (hw : 1 ≤ w) (hin : inputPath.toList.take 5 ≠ "temp/".toList) :
    (w < 1000 →
      (preprocessImage inputPath (some w) now).ops =
        [SharpOp.resize (w * 2) ResizeKernel.lanczos3, SharpOp.grayscale,
         SharpOp.normalize, SharpOp.sharpen 1, SharpOp.threshold 128]) ∧
    (¬ w < 1000 →
      (preprocessImage inputPath (some w) now).ops =
        [SharpOp.grayscale, SharpOp.normalize, SharpOp.sharpen 1,
         SharpOp.threshold 128]) ∧
    (preprocessImage inputPath (some w) now).pngCompressionLevel = 0 ∧
    (preprocessImage inputPath (some w) now).outputPath =
      "temp/processed_" ++ decimalRender now ++ ".png" ∧
    (preprocessImage inputPath (some w) now).writes =
      [(preprocessImage inputPath (some w) now).outputPath] ∧
    (preprocessImage inputPath (some w) now).reads = [inputPath] ∧
    inputPath ∉ (preprocessImage inputPath (some w) now).writes ∧
    (∀ now', now ≠ now' →
      (preprocessImage inputPath (some w) now).outputPath ≠
        (preprocessImage inputPath (some w) now').outputPath) := by
  have hw0 : ¬(w = 0) := by omega
  refine ⟨?_, ?_, rfl, rfl, rfl, rfl, ?_, ?_⟩
  · intro hlt
    simp [preprocessImage, hw0, hlt]
  · intro hge
    simp [preprocessImage, hw0, hge]
  · intro hmem
    have heq : inputPath = (preprocessImage inputPath (some w) now).outputPath := by
      simpa [preprocessImage] using hmem
    have : inputPath.toList.take 5 = "temp/".toList := by
      rw [heq]
      show (("temp/processed_" ++ decimalRender now) ++ ".png").toList.take 5 = _
      rw [String.append_assoc]
      exact scratch_path_take5 (decimalRender now ++ ".png")
    exact hin this
  · intro now' hne h
    exact hne (scratch_path_inj (by simpa [preprocessImage, String.append_assoc] using h))

/-- C8 witness: a 500-pixel-wide source at timestamp 17 is upscaled to
1000, processed by the fixed chain, and written once to
temp/processed_17.png. -/
theorem preprocess_chain_and_scratch_output_witness :
    1 ≤ 500 ∧
    ("images/u.png" : String).toList.take 5 ≠ "temp/".toList ∧
    (preprocessImage "images/u.png" (some 500) 17).ops =
      [SharpOp.resize (500 * 2) ResizeKernel.lanczos3, SharpOp.grayscale,
       SharpOp.normalize, SharpOp.sharpen 1, SharpOp.threshold 128] ∧
    (preprocessImage "images/u.png" (some 500) 17).outputPath =
      "temp/processed_17.png" := by
  refine ⟨by decide, by decide, ?_, ?_⟩
  · exact (preprocess_chain_and_scratch_output "images/u.png" 500 17 (by decide)
      (by decide)).1 (by decide)
  · exact ((preprocess_chain_and_scratch_output "images/u.png" 500 17 (by decide)
      (by decide)).2.2.2.1).trans (by decide)

end SnapSearch
